import Mathlib

/-!
Shallow embedding of the reconciliation core of the terraform-provider-azuread
repository (package `groups` in internal/services/groups/group_resource.go and
the msgraph application helpers bundled with it).

Remote calls are modelled by passing their responses in explicitly (an
environment) and recording the requests the code issues as a trace of
`GroupApiCall` / `AppUpdatePayload` values, in program order.  Fallible Go
functions returning `error` / `diag.Diagnostics` become `Except String`.
Go pointers to values become `Option`; a `*[]T` becomes `Option (List T)`
(`none` for a nil slice pointer).
-/

namespace AzureAD

/-- msgraph.AppRole: all fields are pointers in Go, hence `Option` here. -/
structure AppRole where
  id : Option String
  allowedMemberTypes : Option (List String)
  description : Option String
  displayName : Option String
  isEnabled : Option Bool
  value : Option String
deriving DecidableEq, Repr

/-- msgraph.PermissionScope: all fields are pointers in Go. -/
structure PermissionScope where
  id : Option String
  adminConsentDescription : Option String
  adminConsentDisplayName : Option String
  isEnabled : Option Bool
  scopeType : Option String
  userConsentDescription : Option String
  userConsentDisplayName : Option String
  value : Option String
deriving DecidableEq, Repr

/-- msgraph.ApplicationApi (the part used here). -/
structure ApplicationApi where
  oauth2PermissionScopes : Option (List PermissionScope)
deriving DecidableEq, Repr

/-- The fields of msgraph.Application that ApplicationSetAppRoles and
ApplicationSetOAuth2PermissionScopes read from the freshly fetched copy. -/
structure FetchedApp where
  appRoles : Option (List AppRole)
  api : Option ApplicationApi
deriving DecidableEq, Repr

/-- Outcome of a client.Get call: `ok` when err is nil, `err status` when the
call returned a non-nil error together with the HTTP status code. -/
inductive AppGetOutcome where
  | ok (app : FetchedApp)
  | err (status : Nat)
deriving DecidableEq, Repr

/-- The permission-scope collection of a fetched application, reached through
the Api field: nil when app.Api is nil or app.Api.OAuth2PermissionScopes is
nil. -/
def FetchedApp.currentScopes (app : FetchedApp) : Option (List PermissionScope) :=
  match app.api with
  | some api => api.oauth2PermissionScopes
  | none => none

/-- A client.Update request issued by the two nested-collection replacers,
identified by the collection payload it carries. -/
inductive AppUpdatePayload where
  | roles (rs : List AppRole)
  | scopes (ss : List PermissionScope)
deriving DecidableEq, Repr

/-- The disable loop in ApplicationSetAppRoles:
`for _, role := range *properties.AppRoles { role.IsEnabled = utils.Bool(false) }`.
In Go `role` is a per-iteration copy of the slice element; the assignment
stores a fresh pointer into the field of the copy and the copy is then discarded,
so the slice itself is left unchanged.  The loop therefore yields the roles
exactly as fetched. -/
def disableRolesLoop (roles : List AppRole) : List AppRole :=
  roles.map (fun role =>
    let _copy : AppRole := { role with isEnabled := some false }
    role)

/-- The disable loop in ApplicationSetOAuth2PermissionScopes:
`for _, scope := range *properties.Api.OAuth2PermissionScopes { scope.IsEnabled = utils.Bool(false) }`.
Same Go range-copy semantics as `disableRolesLoop`: the slice is unchanged. -/
def disableScopesLoop (scopes : List PermissionScope) : List PermissionScope :=
  scopes.map (fun scope =>
    let _copy : PermissionScope := { scope with isEnabled := some false }
    scope)

/-- ApplicationSetAppRoles.  Arguments: the ID pointer of the application, the
outcome of the fresh client.Get, and the newRoles pointer (none for nil, which
the function replaces with an empty list).  Returns the list of client.Update
payloads issued, in order, or the error that aborted the run. -/
def ApplicationSetAppRoles (appId : Option String) (get : AppGetOutcome)
    (newRoles0 : Option (List AppRole)) : Except String (List AppUpdatePayload) :=
  match appId with
  | none => .error "cannot use Application model with nil ID"
  | some _ =>
    let newRoles := newRoles0.getD []
    match get with
    | .err status =>
      if status = 404 then .error "application was not found"
      else .error "retrieving Application"
    | .ok app =>
      -- do not update if no changes to be made
      if app.appRoles.isSome ∧ app.appRoles.getD [] = newRoles then
        .ok []
      else
        -- first disable any existing roles
        let disableCalls : List AppUpdatePayload :=
          match app.appRoles with
          | some cur =>
            if cur.length > 0 then [.roles (disableRolesLoop cur)] else []
          | none => []
        -- then set the new roles
        .ok (disableCalls ++ [.roles newRoles])

/-- ApplicationSetOAuth2PermissionScopes, same shape as ApplicationSetAppRoles
but reading the collection through app.Api. -/
def ApplicationSetOAuth2PermissionScopes (appId : Option String) (get : AppGetOutcome)
    (newScopes0 : Option (List PermissionScope)) : Except String (List AppUpdatePayload) :=
  match appId with
  | none => .error "cannot use Application model with nil ID"
  | some _ =>
    let newScopes := newScopes0.getD []
    match get with
    | .err status =>
      if status = 404 then .error "application was not found"
      else .error "retrieving Application"
    | .ok app =>
      let curScopes := app.currentScopes
      -- do not update if no changes to be made
      if curScopes.isSome ∧ curScopes.getD [] = newScopes then
        .ok []
      else
        -- first disable any existing scopes
        let disableCalls : List AppUpdatePayload :=
          match curScopes with
          | some cur =>
            if cur.length > 0 then [.scopes (disableScopesLoop cur)] else []
          | none => []
        -- then set the new scopes
        .ok (disableCalls ++ [.scopes newScopes])

/-- Modelled from the spec: `utils.Difference` is not under src (only its call
sites are).  Spec 4.1: given ordered sequences A and B, return the sequence of
elements present in A but absent in B, preserving the relative order of A, with no
duplicates in the output beyond what A contains.  This is the underlying list. -/
def differenceList (a b : List String) : List String :=
  a.filter (fun x => !(b.contains x))

/-- Modelled from the spec: the Go `utils.Difference` value as seen by its call
sites, which test `!= nil` to skip empty steps (spec 4.3 step 4: "if a step
yields an empty set, skip the call entirely").  `none` plays the role of the
nil slice returned for an empty result; otherwise the result is non-empty. -/
def utilsDifference (a b : List String) : Option (List String) :=
  let out := differenceList a b
  if out = [] then none else some out

/-- strings.EqualFold from the Go standard library, restricted to the ASCII
case folding that object IDs (UUID strings) exercise. -/
def equalFold (a b : String) : Bool :=
  a.toLower == b.toLower

/-- A group returned by groupFindByName (only its ID pointer is inspected by
the duplicate-name checks). -/
structure FoundGroup where
  id : Option String
deriving DecidableEq, Repr

/-- A request issued against the directory API by the group resource code or
by ApplicationSetOwners, identified by its kind and payload. -/
inductive GroupApiCall where
  | findByName (name : String)
  | createGroup (ownerRefs : List String)
  | patchGroup (id : String)
  | listMembers (id : String)
  | removeMembers (id : String) (ms : List String)
  | addMembers (id : String) (ms : List String)
  | listOwners (id : String)
  | addOwners (id : String) (os : List String)
  | removeOwners (id : String) (os : List String)
  | deleteGroup (id : String)
deriving DecidableEq, Repr

/-- True for the two calls that mutate the owners relation. -/
def GroupApiCall.isOwnerMutation : GroupApiCall → Bool
  | .addOwners _ _ => true
  | .removeOwners _ _ => true
  | _ => false

/-- True for any call that touches the members relation (list, add, remove). -/
def GroupApiCall.isMemberRelationCall : GroupApiCall → Bool
  | .listMembers _ => true
  | .addMembers _ _ => true
  | .removeMembers _ _ => true
  | _ => false

/-- True for any call that touches the owners relation (list, add, remove). -/
def GroupApiCall.isOwnerRelationCall : GroupApiCall → Bool
  | .listOwners _ => true
  | .addOwners _ _ => true
  | .removeOwners _ _ => true
  | _ => false

/-- The identifier list carried by a relation-mutating call, none otherwise. -/
def GroupApiCall.mutationPayload : GroupApiCall → Option (List String)
  | .addMembers _ l => some l
  | .removeMembers _ l => some l
  | .addOwners _ l => some l
  | .removeOwners _ l => some l
  | _ => none

/-- ApplicationSetOwners.  Arguments: the ID pointer of the application, the list
of owner IDs returned by client.ListOwners (happy path), and the desired
owners.  Returns the trace of calls issued.  The code computes
ownersForRemoval and ownersToAdd with utils.Difference and then issues the
removal call FIRST, followed by the addition call. -/
def ApplicationSetOwners (appId : Option String) (existingOwners : List String)
    (desiredOwners : List String) : Except String (List GroupApiCall) :=
  match appId with
  | none => .error "cannot use Application model with nil ID"
  | some aid =>
    let ownersForRemoval := utilsDifference existingOwners desiredOwners
    let ownersToAdd := utilsDifference desiredOwners existingOwners
    let removeCalls : List GroupApiCall :=
      match ownersForRemoval with
      | some l => [.removeOwners aid l]
      | none => []
    let addCalls : List GroupApiCall :=
      match ownersToAdd with
      | some l => [.addOwners aid l]
      | none => []
    .ok (.listOwners aid :: (removeCalls ++ addCalls))

/-- Configuration values groupResourceUpdate reads from the resource data.
`members` / `owners` model `d.Get` of the TypeSet value as a duplicate-free
list; `d.GetOk` reports ok exactly when the set is non-empty. -/
structure GroupUpdateConfig where
  displayName : String
  preventDuplicateNames : Bool
  members : List String
  membersHasChange : Bool
  owners : List String
  ownersHasChange : Bool
deriving Repr

/-- Responses of the remote calls groupResourceUpdate makes, happy path. -/
structure GroupUpdateEnv where
  findRes : Option (List FoundGroup)
  existingMembers : List String
  existingOwners : List String
deriving Repr

/-- The apply-time duplicate-name loop of groupResourceUpdate: for each found
group, a nil ID is a bad API response, and an ID different from the
own ID is reported as a duplicate. -/
def dupLoopUpdate (groupId : String) : List FoundGroup → Except String Unit
  | [] => .ok ()
  | g :: rest =>
    match g.id with
    | none => .error "API returned group with nil object ID during duplicate name check"
    | some gid =>
      if gid ≠ groupId then .error ("import as duplicate: " ++ gid)
      else dupLoopUpdate groupId rest

/-- The member-reconciliation calls of groupResourceUpdate: removal first,
then addition, each skipped when its utils.Difference result is nil. -/
def memberReconcileCalls (groupId : String) (desired existing : List String) :
    List GroupApiCall :=
  (match utilsDifference existing desired with
    | some l => [.removeMembers groupId l]
    | none => []) ++
  (match utilsDifference desired existing with
    | some l => [.addMembers groupId l]
    | none => [])

/-- The owner-reconciliation calls of groupResourceUpdate: addition first,
then removal, each skipped when its utils.Difference result is nil. -/
def ownerReconcileCallsUpdate (groupId : String) (desired existing : List String) :
    List GroupApiCall :=
  (match utilsDifference desired existing with
    | some l => [.addOwners groupId l]
    | none => []) ++
  (match utilsDifference existing desired with
    | some l => [.removeOwners groupId l]
    | none => [])

/-- The member block of groupResourceUpdate: entered only when the configured
members set is non-empty (d.GetOk) and d.HasChange reports a change. -/
def memberBlockUpdate (groupId : String) (cfg : GroupUpdateConfig)
    (env : GroupUpdateEnv) : List GroupApiCall :=
  if cfg.members ≠ [] ∧ cfg.membersHasChange then
    .listMembers groupId :: memberReconcileCalls groupId cfg.members env.existingMembers
  else []

/-- The owners block of groupResourceUpdate: entered only when the configured
owners set is non-empty (d.GetOk) and d.HasChange reports a change. -/
def ownerBlockUpdate (groupId : String) (cfg : GroupUpdateConfig)
    (env : GroupUpdateEnv) : List GroupApiCall :=
  if cfg.owners ≠ [] ∧ cfg.ownersHasChange then
    .listOwners groupId :: ownerReconcileCallsUpdate groupId cfg.owners env.existingOwners
  else []

/-- The full trace of calls groupResourceUpdate issues on the happy path:
optional duplicate-name lookup, the PATCH on the group, then the member and
owner reconciliation blocks in program order. -/
def updateTrace (groupId : String) (cfg : GroupUpdateConfig)
    (env : GroupUpdateEnv) : List GroupApiCall :=
  (if cfg.preventDuplicateNames then [.findByName cfg.displayName] else []) ++
    [.patchGroup groupId] ++ memberBlockUpdate groupId cfg env ++
    ownerBlockUpdate groupId cfg env

/-- The outcome of the apply-time duplicate-name check. -/
def updateDupCheck (groupId : String) (cfg : GroupUpdateConfig)
    (env : GroupUpdateEnv) : Except String Unit :=
  -- Perform this check at apply time to catch duplicates created during the same apply
  if cfg.preventDuplicateNames then
    match env.findRes with
    | some l => if l ≠ [] then dupLoopUpdate groupId l else .ok ()
    | none => .ok ()
  else .ok ()

/-- groupResourceUpdate, up to and excluding the trailing groupResourceRead
(modelled separately).  Returns the trace of calls issued on the happy path of
the remote calls, or the error that aborted the run. -/
def groupResourceUpdate (groupId : String) (cfg : GroupUpdateConfig)
    (env : GroupUpdateEnv) : Except String (List GroupApiCall) :=
  match updateDupCheck groupId cfg env with
  | .error e => .error e
  | .ok _ => .ok (updateTrace groupId cfg env)

/-- Configuration values groupResourceCreate reads.  `owners` / `members`
model the TypeSet values; `d.GetOk` reports ok exactly when non-empty. -/
structure GroupCreateConfig where
  displayName : String
  preventDuplicateNames : Bool
  owners : List String
  members : List String
deriving Repr

/-- Responses of the remote calls groupResourceCreate makes, happy path for
everything but the ID on the created group (`createdId = none` models the
"API returned group with nil object ID" case). -/
structure GroupCreateEnv where
  findRes : Option (List FoundGroup)
  createdId : Option String
deriving Repr

/-- The apply-time duplicate-name check of groupResourceCreate: it inspects
only the FIRST found group; a nil ID is a bad API response, any other match is
a duplicate (a freshly created resource has no ID of its own to compare). -/
def dupCheckCreate (res : Option (List FoundGroup)) : Except String Unit :=
  match res with
  | some (g :: _) =>
    match g.id with
    | none => .error "API returned group with nil object ID during duplicate name check"
    | some gid => .error ("import as duplicate: " ++ gid)
  | _ => .ok ()

/-- The full trace of calls groupResourceCreate issues on the happy path.
The caller is appended as owner to the group properties BEFORE client.Create
is issued, so the create request carries the owner ref list [callerId]. -/
def createTrace (callerId : String) (cfg : GroupCreateConfig) (gid : String) :
    List GroupApiCall :=
  -- Add the caller as the group owner to prevent lock-out after creation:
  -- the create request carries the owner ref list [callerId]
  let removeInitialOwner := !(cfg.owners.any (fun o => equalFold callerId o))
  (if cfg.preventDuplicateNames then [.findByName cfg.displayName] else []) ++
    [.createGroup [callerId]] ++
    -- Configure owners after the group is created, so they can be set one-by-one
    (if cfg.owners ≠ [] then [.addOwners gid cfg.owners] else []) ++
    -- Configure members after the group is created, so they can be reliably batched
    (if cfg.members ≠ [] then [.addMembers gid cfg.members] else []) ++
    -- Remove the initial owner
    (if removeInitialOwner then [.removeOwners gid [callerId]] else [])

/-- groupResourceCreate, up to and excluding the trailing groupResourceRead.
removeInitialOwner starts true and is cleared when some configured owner
matches the caller under strings.EqualFold; when still set at the end, a final
RemoveOwners call for the caller is issued. -/
def groupResourceCreate (callerId : String) (cfg : GroupCreateConfig)
    (env : GroupCreateEnv) : Except String (List GroupApiCall) :=
  -- Perform this check at apply time to catch duplicates created during the same apply
  match (if cfg.preventDuplicateNames then dupCheckCreate env.findRes else .ok ()) with
  | .error e => .error e
  | .ok _ =>
    match env.createdId with
    | none => .error "API returned group with nil object ID"
    | some gid => .ok (createTrace callerId cfg gid)

/-- The inputs groupResourceCustomizeDiff reads from the planned diff. -/
structure DiffCtx where
  resourceId : String
  oldDisplayName : String
  newDisplayName : String
  mailEnabled : Bool
  groupTypes : List String
  preventDuplicateNames : Bool
deriving Repr

/-- The errors groupResourceCustomizeDiff can return. -/
inductive DiffError where
  | typesMustContainUnified
  | mailEnabledRequired
  | findFailed
  | nilObjectId
  | duplicate (id : String) (name : String)
deriving DecidableEq, Repr

/-- The duplicate-name loop of groupResourceCustomizeDiff.  For each found
group: a nil ID is a bad API response; the duplicate error is returned when
`diff.Id() == "" || diff.Id() == *existingGroup.ID` (the resource is new, or
the match ID EQUALS its own resource ID). -/
def dupLoopDiff (resourceId name : String) : List FoundGroup → Except DiffError Unit
  | [] => .ok ()
  | g :: rest =>
    match g.id with
    | none => .error .nilObjectId
    | some gid =>
      if resourceId = "" ∨ resourceId = gid then .error (.duplicate gid name)
      else dupLoopDiff resourceId name rest

/-- groupResourceCustomizeDiff.  `findRes` is the outcome of groupFindByName
(`Except Unit` error for a failed lookup, otherwise the possibly-nil list of
matches).  The duplicate-name branch runs only when prevent_duplicate_names is
set and the display name is new or changed. -/
def groupResourceCustomizeDiff (ctx : DiffCtx)
    (findRes : Except Unit (Option (List FoundGroup))) : Except DiffError Unit :=
  if ctx.mailEnabled ∧ ¬ ctx.groupTypes.contains "Unified" then
    .error .typesMustContainUnified
  else if ¬ ctx.mailEnabled ∧ ctx.groupTypes.contains "Unified" then
    .error .mailEnabledRequired
  else if ctx.preventDuplicateNames ∧
      (ctx.oldDisplayName = "" ∨ ctx.oldDisplayName ≠ ctx.newDisplayName) then
    match findRes with
    | .error _ => .error .findFailed
    | .ok none => .ok ()
    | .ok (some l) =>
      if l ≠ [] then dupLoopDiff ctx.resourceId ctx.newDisplayName l else .ok ()
  else .ok ()

/-- Outcome of client.Get for a group: `ok` when err is nil, else the status. -/
inductive GroupGetOutcome where
  | ok
  | err (status : Nat)
deriving DecidableEq, Repr

/-- Responses of the remote calls groupResourceRead makes. -/
structure GroupReadEnv where
  get : GroupGetOutcome
  owners : Except Unit (List String)
  members : Except Unit (List String)
deriving Repr

/-- What groupResourceRead leaves behind on success: either the resource ID
was cleared from state (d.SetId of the empty string, resource treated as
removed externally), or the state was populated from the fetched group. -/
inductive ReadResult where
  | removedFromState
  | populated (owners members : List String)
deriving DecidableEq, Repr

/-- groupResourceRead.  A Get error with HTTP 404 clears the ID from state and
returns success (nil diagnostics); any other Get error is surfaced.  On
success the owners and members lists are fetched and written to state. -/
def groupResourceRead (env : GroupReadEnv) : Except String ReadResult :=
  match env.get with
  | .err status =>
    if status = 404 then .ok .removedFromState
    else .error "retrieving group"
  | .ok =>
    match env.owners with
    | .error _ => .error "could not retrieve owners"
    | .ok os =>
      match env.members with
      | .error _ => .error "could not retrieve members"
      | .ok ms => .ok (.populated os ms)

/-- Responses of the remote calls groupResourceDelete makes. -/
structure GroupDeleteEnv where
  get : GroupGetOutcome
  del : Except Unit Unit
deriving Repr

/-- groupResourceDelete.  The pre-delete Get surfaces a 404 as a user-facing
failure ("Group was not found"); other Get errors and Delete errors are also
surfaced; otherwise the delete call succeeds. -/
def groupResourceDelete (env : GroupDeleteEnv) : Except String Unit :=
  match env.get with
  | .err status =>
    if status = 404 then .error "group was not found"
    else .error "retrieving group"
  | .ok =>
    match env.del with
    | .error _ => .error "deleting group"
    | .ok _ => .ok ()

/-- A concrete enabled app role as fetched from the API. -/
def sampleRole1 : AppRole :=
  { id := some "r1", allowedMemberTypes := some ["User"],
    description := some "first role", displayName := some "First Role",
    isEnabled := some true, value := some "one" }

/-- A concrete desired app role, distinct from sampleRole1. -/
def sampleRole2 : AppRole :=
  { id := some "r2", allowedMemberTypes := some ["User"],
    description := some "second role", displayName := some "Second Role",
    isEnabled := some true, value := some "two" }

/-- A concrete enabled permission scope as fetched from the API. -/
def sampleScope1 : PermissionScope :=
  { id := some "s1", adminConsentDescription := some "first scope",
    adminConsentDisplayName := some "First Scope", isEnabled := some true,
    scopeType := some "User", userConsentDescription := some "first scope",
    userConsentDisplayName := some "First Scope", value := some "one" }

/-- A concrete desired permission scope, distinct from sampleScope1. -/
def sampleScope2 : PermissionScope :=
  { id := some "s2", adminConsentDescription := some "second scope",
    adminConsentDisplayName := some "Second Scope", isEnabled := some true,
    scopeType := some "User", userConsentDescription := some "second scope",
    userConsentDisplayName := some "Second Scope", value := some "two" }

/-- A concrete update configuration used by witnesses: owners changed from
[o1] to [o2], no duplicate-name guard, members untouched. -/
def witnessUpdateCfg : GroupUpdateConfig :=
  { displayName := "grp", preventDuplicateNames := false,
    members := [], membersHasChange := false,
    owners := ["o2"], ownersHasChange := true }

/-- A concrete update environment used by witnesses: the remote group
currently has owner o1 and members m1, m2. -/
def witnessUpdateEnv : GroupUpdateEnv :=
  { findRes := none, existingMembers := ["m1", "m2"], existingOwners := ["o1"] }

/-- A concrete update configuration with an empty owners set and a changed
non-empty members set. -/
def witnessUpdateCfg2 : GroupUpdateConfig :=
  { displayName := "grp", preventDuplicateNames := false,
    members := ["m3"], membersHasChange := true,
    owners := [], ownersHasChange := true }

/-- A concrete create configuration whose desired owners do not include the
acting principal. -/
def witnessCreateCfg : GroupCreateConfig :=
  { displayName := "grp", preventDuplicateNames := false,
    owners := ["OWNER1"], members := ["m1"] }

/-- A concrete create environment: no duplicate found, creation returned a
group with object ID gc. -/
def witnessCreateEnv : GroupCreateEnv :=
  { findRes := none, createdId := some "gc" }

/-- The customize-diff inputs of an existing resource (ID g1) whose display
name changes from old to new with the duplicate-name guard enabled. -/
def renameDiffCtx : DiffCtx :=
  { resourceId := "g1", oldDisplayName := "old", newDisplayName := "new",
    mailEnabled := false, groupTypes := [], preventDuplicateNames := true }

/-! Helper lemmas shared by the claim theorems. -/

theorem mem_differenceList (a b : List String) (x : String) :
    x ∈ differenceList a b ↔ x ∈ a ∧ x ∉ b := by
  simp [differenceList]

theorem utilsDifference_some_ne_nil {a b l : List String}
    (h : utilsDifference a b = some l) : l ≠ [] := by
  simp only [utilsDifference] at h
  split at h
  · exact absurd h (by simp)
  · next hne => cases h; exact hne

theorem utilsDifference_some_eq {a b l : List String}
    (h : utilsDifference a b = some l) : l = differenceList a b := by
  simp only [utilsDifference] at h
  split at h
  · exact absurd h (by simp)
  · cases h; rfl

/-- C8: Difference(A, A) is empty, Difference(A, nothing) is A, Difference of
the empty sequence is empty, and in general the result is exactly the elements
of A absent from B, in the relative order of A (a sublist of A), with each
multiplicity of each element bounded by its multiplicity in A; the Go value is nil
exactly when the result is empty. -/
theorem difference_contract (a b : List String) :
    differenceList a a = [] ∧
    differenceList a [] = a ∧
    differenceList [] b = [] ∧
    (∀ x, x ∈ differenceList a b ↔ x ∈ a ∧ x ∉ b) ∧
    List.Sublist (differenceList a b) a ∧
    (∀ x, (differenceList a b).count x ≤ a.count x) ∧
    (utilsDifference a b = none ↔ differenceList a b = []) := by
  refine ⟨?_, ?_, rfl, mem_differenceList a b, List.filter_sublist a, ?_, ?_⟩
  · simp [differenceList]
  · simp [differenceList]
  · intro x
    exact (List.filter_sublist a).count_le x
  · constructor
    · intro h
      simp only [utilsDifference] at h
      split at h
      · assumption
      · exact absurd h (by simp)
    · intro h
      simp [utilsDifference, h]

/-- C7: a not-found status on the Get of the read path clears the resource ID from
state and returns success, while the same status on the groupResourceDelete
pre-delete Get is surfaced as a user-facing failure. -/
theorem notFound_read_recovered_delete_surfaced
    (os ms : Except Unit (List String)) (dr : Except Unit Unit) :
    groupResourceRead { get := .err 404, owners := os, members := ms } =
      .ok .removedFromState ∧
    groupResourceDelete { get := .err 404, del := dr } =
      .error "group was not found" := by
  exact ⟨rfl, rfl⟩

/-- C1: evaluating the replacers at a non-empty current collection shows the
first update call carries the current items with their enabled flags exactly
as fetched (still true), not set to false: the Go disable loop assigns the
flag on a per-iteration copy of the slice element, so the payload is the
fetched collection unchanged.  This contradicts the claim (and the source
comment "first disable any existing roles"). -/
theorem disable_call_carries_enabled_items :
    ApplicationSetAppRoles (some "a1") (.ok { appRoles := some [sampleRole1], api := none })
        (some [sampleRole2]) =
      .ok [.roles [sampleRole1], .roles [sampleRole2]] ∧
    sampleRole1.isEnabled = some true ∧
    ApplicationSetOAuth2PermissionScopes (some "a1")
        (.ok { appRoles := none, api := some { oauth2PermissionScopes := some [sampleScope1] } })
        (some [sampleScope2]) =
      .ok [.scopes [sampleScope1], .scopes [sampleScope2]] ∧
    sampleScope1.isEnabled = some true := by
  refine ⟨rfl, rfl, rfl, rfl⟩

/-- C4: when the freshly fetched current collection is present and
element-wise equal to the desired collection, both replacers return without
issuing any update call. -/
theorem nested_replace_idempotent :
    (∀ (aid : String) (app : FetchedApp) (cur : List AppRole)
        (nr : Option (List AppRole)),
      app.appRoles = some cur → cur = nr.getD [] →
      ApplicationSetAppRoles (some aid) (.ok app) nr = .ok []) ∧
    (∀ (aid : String) (app : FetchedApp) (cur : List PermissionScope)
        (ns : Option (List PermissionScope)),
      app.currentScopes = some cur → cur = ns.getD [] →
      ApplicationSetOAuth2PermissionScopes (some aid) (.ok app) ns = .ok []) := by
  constructor
  · intro aid app cur nr h1 h2
    simp [ApplicationSetAppRoles, h1, h2]
  · intro aid app cur ns h1 h2
    simp [ApplicationSetOAuth2PermissionScopes, h1, h2]

/-- Witness for nested_replace_idempotent at a concrete matching collection. -/
theorem nested_replace_idempotent_witness :
    ApplicationSetAppRoles (some "w4") (.ok { appRoles := some [sampleRole1], api := none })
      (some [sampleRole1]) = .ok [] ∧
    ApplicationSetOAuth2PermissionScopes (some "w4")
      (.ok { appRoles := none, api := some { oauth2PermissionScopes := some [sampleScope1] } })
      (some [sampleScope1]) = .ok [] := by
  exact ⟨nested_replace_idempotent.1 "w4" _ [sampleRole1] (some [sampleRole1]) rfl rfl,
    nested_replace_idempotent.2 "w4" _ [sampleScope1] (some [sampleScope1]) rfl rfl⟩

/-- C9: when the desired collection is nil or empty and the current collection
is not already element-wise equal to it, the final replace call is still
issued and writes the empty collection, as the last update of the run. -/
theorem empty_desired_still_replaces :
    (∀ (aid : String) (app : FetchedApp) (nr : Option (List AppRole)),
      nr = none ∨ nr = some [] → app.appRoles ≠ some [] →
      ∃ calls, ApplicationSetAppRoles (some aid) (.ok app) nr = .ok calls ∧
        calls ≠ [] ∧ calls.getLast? = some (.roles [])) ∧
    (∀ (aid : String) (app : FetchedApp) (ns : Option (List PermissionScope)),
      ns = none ∨ ns = some [] → app.currentScopes ≠ some [] →
      ∃ calls, ApplicationSetOAuth2PermissionScopes (some aid) (.ok app) ns = .ok calls ∧
        calls ≠ [] ∧ calls.getLast? = some (.scopes [])) := by
  constructor
  · rintro aid app nr (rfl | rfl) hne <;>
    · cases happ : app.appRoles with
      | none =>
        exact ⟨[.roles []], by simp [ApplicationSetAppRoles, happ], by simp, rfl⟩
      | some cur =>
        have hcur : cur ≠ [] := fun h => hne (by rw [happ, h])
        refine ⟨[.roles (disableRolesLoop cur), .roles []], ?_, by simp, rfl⟩
        simp [ApplicationSetAppRoles, happ, hcur, List.length_pos]
  · rintro aid app ns (rfl | rfl) hne <;>
    · cases happ : app.currentScopes with
      | none =>
        exact ⟨[.scopes []], by simp [ApplicationSetOAuth2PermissionScopes, happ], by simp, rfl⟩
      | some cur =>
        have hcur : cur ≠ [] := fun h => hne (by rw [happ, h])
        refine ⟨[.scopes (disableScopesLoop cur), .scopes []], ?_, by simp, rfl⟩
        simp [ApplicationSetOAuth2PermissionScopes, happ, hcur, List.length_pos]

/-- Witness for empty_desired_still_replaces at a concrete non-empty current
collection with a nil desired collection. -/
theorem empty_desired_still_replaces_witness :
    (∃ calls, ApplicationSetAppRoles (some "w9")
        (.ok { appRoles := some [sampleRole1], api := none }) none = .ok calls ∧
      calls ≠ [] ∧ calls.getLast? = some (.roles [])) ∧
    (∃ calls, ApplicationSetOAuth2PermissionScopes (some "w9")
        (.ok { appRoles := none, api := some { oauth2PermissionScopes := some [sampleScope1] } })
        none = .ok calls ∧
      calls ≠ [] ∧ calls.getLast? = some (.scopes [])) := by
  exact ⟨empty_desired_still_replaces.1 "w9" _ none (Or.inl rfl) (by simp),
    empty_desired_still_replaces.2 "w9" _ none (Or.inl rfl) (by simp [FetchedApp.currentScopes])⟩

theorem filter_ownerMutation_memberReconcile (gid : String) (d e : List String) :
    (memberReconcileCalls gid d e).filter GroupApiCall.isOwnerMutation = [] := by
  cases h1 : utilsDifference e d <;> cases h2 : utilsDifference d e <;>
    simp [memberReconcileCalls, h1, h2, GroupApiCall.isOwnerMutation]

theorem filter_ownerMutation_memberBlock (gid : String) (cfg : GroupUpdateConfig)
    (env : GroupUpdateEnv) :
    (memberBlockUpdate gid cfg env).filter GroupApiCall.isOwnerMutation = [] := by
  unfold memberBlockUpdate
  split
  · simp [GroupApiCall.isOwnerMutation, filter_ownerMutation_memberReconcile]
  · rfl

theorem update_ok_trace {gid : String} {cfg : GroupUpdateConfig}
    {env : GroupUpdateEnv} {t : List GroupApiCall}
    (h : groupResourceUpdate gid cfg env = .ok t) : t = updateTrace gid cfg env := by
  unfold groupResourceUpdate at h
  split at h
  · exact absurd h (by simp)
  · cases h; rfl

/-- C2 counterexample: ApplicationSetOwners, reconciling existing owners
[o1] to desired owners [o2] (both the add set and the remove set non-empty),
issues the remove-owners call BEFORE the add-owners call: the first
owner-mutating call of the trace is the removal. -/
theorem owners_remove_before_add_counterexample :
    ApplicationSetOwners (some "a2") ["o1"] ["o2"] =
      .ok [.listOwners "a2", .removeOwners "a2" ["o1"], .addOwners "a2" ["o2"]] ∧
    (([GroupApiCall.listOwners "a2", .removeOwners "a2" ["o1"],
        .addOwners "a2" ["o2"]].filter GroupApiCall.isOwnerMutation).head? =
      some (.removeOwners "a2" ["o1"])) := by
  exact ⟨rfl, rfl⟩

/-- C2 amended: in the owners reconciliation of groupResourceUpdate, when both
computed sets are non-empty the add-owners call is issued before the
remove-owners call (the owner-mutating subtrace is [add, remove]), so the
owners set is never empty at an intermediate point there; in
ApplicationSetOwners, however, the remove-owners call is issued before the
add-owners call (subtrace [remove, add]). -/
theorem owners_ordering_amended :
    (∀ (gid : String) (cfg : GroupUpdateConfig) (env : GroupUpdateEnv)
        (toAdd toRem : List String) (t : List GroupApiCall),
      utilsDifference cfg.owners env.existingOwners = some toAdd →
      utilsDifference env.existingOwners cfg.owners = some toRem →
      cfg.owners ≠ [] → cfg.ownersHasChange = true →
      groupResourceUpdate gid cfg env = .ok t →
      t.filter GroupApiCall.isOwnerMutation =
        [.addOwners gid toAdd, .removeOwners gid toRem]) ∧
    (∀ (aid : String) (existing desired toRem toAdd : List String)
        (t : List GroupApiCall),
      utilsDifference existing desired = some toRem →
      utilsDifference desired existing = some toAdd →
      ApplicationSetOwners (some aid) existing desired = .ok t →
      t.filter GroupApiCall.isOwnerMutation =
        [.removeOwners aid toRem, .addOwners aid toAdd]) := by
  constructor
  · intro gid cfg env toAdd toRem t hAdd hRem hne hch ht
    have hshape := update_ok_trace ht
    subst hshape
    unfold updateTrace
    simp only [List.filter_append, filter_ownerMutation_memberBlock]
    have hpre : ((if cfg.preventDuplicateNames
        then [GroupApiCall.findByName cfg.displayName] else []).filter
          GroupApiCall.isOwnerMutation) = [] := by
      split <;> rfl
    rw [hpre]
    simp [ownerBlockUpdate, hne, hch, ownerReconcileCallsUpdate, hAdd, hRem,
      GroupApiCall.isOwnerMutation]
  · intro aid existing desired toRem toAdd t hRem hAdd ht
    unfold ApplicationSetOwners at ht
    rw [hRem, hAdd] at ht
    cases ht
    simp [GroupApiCall.isOwnerMutation]

/-- Witness for owners_ordering_amended at concrete inputs: the group update
reconciles owners [o1] to [o2] with the adds-first order, and
ApplicationSetOwners reconciles the same sets with the removes-first order. -/
theorem owners_ordering_amended_witness :
    ((updateTrace "gw" witnessUpdateCfg witnessUpdateEnv).filter
        GroupApiCall.isOwnerMutation =
      [.addOwners "gw" ["o2"], .removeOwners "gw" ["o1"]]) ∧
    (([GroupApiCall.listOwners "aw", .removeOwners "aw" ["o1"],
        .addOwners "aw" ["o2"]].filter GroupApiCall.isOwnerMutation) =
      [.removeOwners "aw" ["o1"], .addOwners "aw" ["o2"]]) := by
  exact ⟨owners_ordering_amended.1 "gw" witnessUpdateCfg witnessUpdateEnv
      ["o2"] ["o1"] _ rfl rfl (by simp [witnessUpdateCfg]) rfl rfl,
    owners_ordering_amended.2 "aw" ["o1"] ["o2"] ["o1"] ["o2"] _ rfl rfl rfl⟩

theorem create_ok_trace {cid : String} {cfg : GroupCreateConfig}
    {env : GroupCreateEnv} {t : List GroupApiCall}
    (h : groupResourceCreate cid cfg env = .ok t) :
    ∃ gid, env.createdId = some gid ∧ t = createTrace cid cfg gid := by
  unfold groupResourceCreate at h
  split at h
  · exact absurd h (by simp)
  · cases hc : env.createdId with
    | none => rw [hc] at h; exact absurd h (by simp)
    | some gid => rw [hc] at h; cases h; exact ⟨gid, rfl, rfl⟩

/-- C5: in groupResourceCreate, the create request itself carries the acting
principal as owner ref (added before client.Create is issued), and the run
ends with a remove-owners call for the acting principal exactly when no
desired owner matches the acting principal (strings.EqualFold); when some
desired owner does match, no remove-owners call occurs at all. -/
theorem create_initial_owner (callerId : String) (cfg : GroupCreateConfig)
    (env : GroupCreateEnv) (gid : String) (t : List GroupApiCall) :
    env.createdId = some gid →
    groupResourceCreate callerId cfg env = .ok t →
    GroupApiCall.createGroup [callerId] ∈ t ∧
    (cfg.owners.any (fun o => equalFold callerId o) = false →
      t.getLast? = some (.removeOwners gid [callerId])) ∧
    (cfg.owners.any (fun o => equalFold callerId o) = true →
      ∀ l, GroupApiCall.removeOwners gid l ∉ t) := by
  intro hid ht
  obtain ⟨gid0, hid0, hshape⟩ := create_ok_trace ht
  rw [hid] at hid0
  cases hid0
  subst hshape
  refine ⟨?_, ?_, ?_⟩
  · simp [createTrace]
  · intro hany
    by_cases hpd : cfg.preventDuplicateNames <;>
      by_cases how : cfg.owners = [] <;>
        by_cases hmem : cfg.members = [] <;>
          simp [createTrace, hany, hpd, how, hmem]
  · intro hany l
    by_cases how : cfg.owners = []
    · rw [how] at hany
      simp at hany
    · by_cases hpd : cfg.preventDuplicateNames <;>
        by_cases hmem : cfg.members = [] <;>
          simp [createTrace, hany, hpd, how, hmem]

/-- Witness for create_initial_owner: a caller not named in the desired
owners is carried on the create request and removed by the final call. -/
theorem create_initial_owner_witness :
    GroupApiCall.createGroup ["caller"] ∈ createTrace "caller" witnessCreateCfg "gc" ∧
    (witnessCreateCfg.owners.any (fun o => equalFold "caller" o) = false →
      (createTrace "caller" witnessCreateCfg "gc").getLast? =
        some (.removeOwners "gc" ["caller"])) ∧
    (witnessCreateCfg.owners.any (fun o => equalFold "caller" o) = true →
      ∀ l, GroupApiCall.removeOwners "gc" l ∉ createTrace "caller" witnessCreateCfg "gc") :=
  create_initial_owner "caller" witnessCreateCfg witnessCreateEnv "gc" _ rfl rfl

theorem mutationPayload_memberReconcile (gid : String) (d e : List String) :
    ∀ c ∈ memberReconcileCalls gid d e, ∀ l, c.mutationPayload = some l → l ≠ [] := by
  intro c hc l hl
  unfold memberReconcileCalls at hc
  cases h1 : utilsDifference e d <;> cases h2 : utilsDifference d e <;>
    rw [h1, h2] at hc
  · simp at hc
  · simp at hc
    subst hc
    simp [GroupApiCall.mutationPayload] at hl
    subst hl
    exact utilsDifference_some_ne_nil h2
  · simp at hc
    subst hc
    simp [GroupApiCall.mutationPayload] at hl
    subst hl
    exact utilsDifference_some_ne_nil h1
  · simp at hc
    rcases hc with hc | hc <;> subst hc <;>
      simp [GroupApiCall.mutationPayload] at hl <;> subst hl
    · exact utilsDifference_some_ne_nil h1
    · exact utilsDifference_some_ne_nil h2

theorem mutationPayload_ownerReconcileUpdate (gid : String) (d e : List String) :
    ∀ c ∈ ownerReconcileCallsUpdate gid d e, ∀ l, c.mutationPayload = some l → l ≠ [] := by
  intro c hc l hl
  unfold ownerReconcileCallsUpdate at hc
  cases h1 : utilsDifference d e <;> cases h2 : utilsDifference e d <;>
    rw [h1, h2] at hc
  · simp at hc
  · simp at hc
    subst hc
    simp [GroupApiCall.mutationPayload] at hl
    subst hl
    exact utilsDifference_some_ne_nil h2
  · simp at hc
    subst hc
    simp [GroupApiCall.mutationPayload] at hl
    subst hl
    exact utilsDifference_some_ne_nil h1
  · simp at hc
    rcases hc with hc | hc <;> subst hc <;>
      simp [GroupApiCall.mutationPayload] at hl <;> subst hl
    · exact utilsDifference_some_ne_nil h1
    · exact utilsDifference_some_ne_nil h2

theorem mutationPayload_updateTrace (gid : String) (cfg : GroupUpdateConfig)
    (env : GroupUpdateEnv) :
    ∀ c ∈ updateTrace gid cfg env, ∀ l, c.mutationPayload = some l → l ≠ [] := by
  intro c hc l hl
  unfold updateTrace at hc
  simp only [List.mem_append] at hc
  rcases hc with ((hc | hc) | hc) | hc
  · split at hc <;> simp at hc
    subst hc
    simp [GroupApiCall.mutationPayload] at hl
  · simp at hc
    subst hc
    simp [GroupApiCall.mutationPayload] at hl
  · unfold memberBlockUpdate at hc
    split at hc
    · simp only [List.mem_cons] at hc
      rcases hc with hc | hc
      · subst hc
        simp [GroupApiCall.mutationPayload] at hl
      · exact mutationPayload_memberReconcile gid _ _ c hc l hl
    · simp at hc
  · unfold ownerBlockUpdate at hc
    split at hc
    · simp only [List.mem_cons] at hc
      rcases hc with hc | hc
      · subst hc
        simp [GroupApiCall.mutationPayload] at hl
      · exact mutationPayload_ownerReconcileUpdate gid _ _ c hc l hl
    · simp at hc

/-- C6: every relation-mutating call issued by groupResourceUpdate or by
ApplicationSetOwners carries a non-empty identifier list: a step whose
utils.Difference result is empty (nil) issues no corresponding call. -/
theorem empty_step_skipped :
    (∀ (gid : String) (cfg : GroupUpdateConfig) (env : GroupUpdateEnv)
        (t : List GroupApiCall),
      groupResourceUpdate gid cfg env = .ok t →
      ∀ c ∈ t, ∀ l, c.mutationPayload = some l → l ≠ []) ∧
    (∀ (aid : String) (existing desired : List String) (t : List GroupApiCall),
      ApplicationSetOwners (some aid) existing desired = .ok t →
      ∀ c ∈ t, ∀ l, c.mutationPayload = some l → l ≠ []) := by
  constructor
  · intro gid cfg env t ht
    have hshape := update_ok_trace ht
    subst hshape
    exact mutationPayload_updateTrace gid cfg env
  · intro aid existing desired t ht c hc l hl
    unfold ApplicationSetOwners at ht
    cases ht
    simp only [List.mem_cons] at hc
    rcases hc with hc | hc
    · subst hc
      simp [GroupApiCall.mutationPayload] at hl
    · simp only [List.mem_append] at hc
      rcases hc with hc | hc
      · revert hc
        cases h1 : utilsDifference existing desired <;> intro hc
        · simp at hc
        · simp at hc
          subst hc
          simp [GroupApiCall.mutationPayload] at hl
          subst hl
          exact utilsDifference_some_ne_nil h1
      · revert hc
        cases h2 : utilsDifference desired existing <;> intro hc
        · simp at hc
        · simp at hc
          subst hc
          simp [GroupApiCall.mutationPayload] at hl
          subst hl
          exact utilsDifference_some_ne_nil h2

/-- Witness for empty_step_skipped: the add-owners call issued when
reconciling owners [o1] to [o2] carries the non-empty list [o2]. -/
theorem empty_step_skipped_witness : (["o2"] : List String) ≠ [] :=
  empty_step_skipped.1 "gw" witnessUpdateCfg witnessUpdateEnv _ rfl
    (.addOwners "gw" ["o2"]) (by decide) ["o2"] rfl

theorem filter_memberRel_ownerBlock (gid : String) (cfg : GroupUpdateConfig)
    (env : GroupUpdateEnv) :
    (ownerBlockUpdate gid cfg env).filter GroupApiCall.isMemberRelationCall = [] := by
  unfold ownerBlockUpdate
  split
  · cases h1 : utilsDifference cfg.owners env.existingOwners <;>
      cases h2 : utilsDifference env.existingOwners cfg.owners <;>
        simp [ownerReconcileCallsUpdate, h1, h2, GroupApiCall.isMemberRelationCall]
  · rfl

theorem filter_ownerRel_memberBlock (gid : String) (cfg : GroupUpdateConfig)
    (env : GroupUpdateEnv) :
    (memberBlockUpdate gid cfg env).filter GroupApiCall.isOwnerRelationCall = [] := by
  unfold memberBlockUpdate
  split
  · cases h1 : utilsDifference env.existingMembers cfg.members <;>
      cases h2 : utilsDifference cfg.members env.existingMembers <;>
        simp [memberReconcileCalls, h1, h2, GroupApiCall.isOwnerRelationCall]
  · rfl

/-- C10: when the configured members set is empty, the groupResourceUpdate
member reconciliation block is skipped entirely (no list, add or remove call
touching the members relation appears in the trace); likewise for owners. -/
theorem empty_desired_skips_block (gid : String) (cfg : GroupUpdateConfig)
    (env : GroupUpdateEnv) (t : List GroupApiCall) :
    groupResourceUpdate gid cfg env = .ok t →
    (cfg.members = [] → t.filter GroupApiCall.isMemberRelationCall = []) ∧
    (cfg.owners = [] → t.filter GroupApiCall.isOwnerRelationCall = []) := by
  intro ht
  have hshape := update_ok_trace ht
  subst hshape
  constructor
  · intro hm
    unfold updateTrace
    simp only [List.filter_append, filter_memberRel_ownerBlock]
    have hpre : ((if cfg.preventDuplicateNames
        then [GroupApiCall.findByName cfg.displayName] else []).filter
          GroupApiCall.isMemberRelationCall) = [] := by
      split <;> rfl
    rw [hpre]
    simp [memberBlockUpdate, hm, GroupApiCall.isMemberRelationCall]
  · intro ho
    unfold updateTrace
    simp only [List.filter_append, filter_ownerRel_memberBlock]
    have hpre : ((if cfg.preventDuplicateNames
        then [GroupApiCall.findByName cfg.displayName] else []).filter
          GroupApiCall.isOwnerRelationCall) = [] := by
      split <;> rfl
    rw [hpre]
    simp [ownerBlockUpdate, ho, GroupApiCall.isOwnerRelationCall]

/-- Witness for empty_desired_skips_block: with empty configured members the
trace has no member-relation call, and with empty configured owners no
owner-relation call. -/
theorem empty_desired_skips_block_witness :
    (updateTrace "gw" witnessUpdateCfg witnessUpdateEnv).filter
      GroupApiCall.isMemberRelationCall = [] ∧
    (updateTrace "gw" witnessUpdateCfg2 witnessUpdateEnv).filter
      GroupApiCall.isOwnerRelationCall = [] :=
  ⟨(empty_desired_skips_block "gw" witnessUpdateCfg witnessUpdateEnv _ rfl).1 rfl,
    (empty_desired_skips_block "gw" witnessUpdateCfg2 witnessUpdateEnv _ rfl).2 rfl⟩

/-- C3: evaluated at an existing resource (ID g1) being renamed with the
guard enabled, the plan-time diff validation returns NO error when the name
lookup finds a match whose ID g2 differs from g1, and returns the duplicate
error when the match ID equals g1 — the reverse of the claimed condition —
while the apply-time update check (dupLoopUpdate) flags exactly the
differently-identified match. -/
theorem customizeDiff_duplicate_condition_inverted :
    groupResourceCustomizeDiff renameDiffCtx (.ok (some [{ id := some "g2" }])) = .ok () ∧
    groupResourceCustomizeDiff renameDiffCtx (.ok (some [{ id := some "g1" }])) =
      .error (.duplicate "g1" "new") ∧
    dupLoopUpdate "g1" [{ id := some "g2" }] = .error "import as duplicate: g2" ∧
    dupLoopUpdate "g1" [{ id := some "g1" }] = .ok () := by
  exact ⟨rfl, rfl, rfl, rfl⟩

end AzureAD
